import Mathlib

set_option maxHeartbeats 1000000

/-!
Verification of the field-resolution, classification and aggregation core of
a client-side report renderer (src/web/nakshatra_rationale.js and
src/web/app.js).

Modelling conventions.  A JavaScript value inspected by this code is a
string, a number or null; a key that is absent from a record plays the role
of undefined.  A record is an association list of field name and value in
insertion order (the order Object.entries enumerates).  Numbers are modelled
by Int: no verified property depends on fractional score values.  The
JavaScript methods toLowerCase, toUpperCase and includes are modelled by
character-list maps and an explicit substring scan, which agree with the
source on the ASCII data these classifiers receive.
-/

/-- A JavaScript field value as inspected by the renderer. -/
inductive Value where
  | vStr (s : String)
  | vNum (n : Int)
  | vNull
deriving DecidableEq

/-- A raw report record: field names with values, in insertion order. -/
abbrev Row := List (String × Value)

/-- JS property read row[key]: the binding of key, none when absent. -/
def lookupKey (row : Row) (k : String) : Option Value :=
  Option.map Prod.snd (row.find? (fun kv => kv.1 == k))

/-- pat is an initial segment of the character list. -/
def leadsWith : List Char → List Char → Bool
  | [], _ => true
  | _ :: _, [] => false
  | a :: as, b :: bs => a == b && leadsWith as bs

/-- pat occurs as a contiguous run somewhere in the character list. -/
def occursIn (pat : List Char) : List Char → Bool
  | [] => pat.isEmpty
  | b :: bs => leadsWith pat (b :: bs) || occursIn pat bs

/-- JS s.includes(pat). -/
def strContains (s pat : String) : Bool := occursIn pat.data s.data

/-- JS s.toLowerCase() on the ASCII data these classifiers receive. -/
def jsToLower (s : String) : String := String.mk (s.data.map Char.toLower)

/-- JS s.toUpperCase() on the ASCII data these classifiers receive. -/
def jsToUpper (s : String) : String := String.mk (s.data.map Char.toUpper)

/-- The skip test both phases of pickField apply to a bound value: a value
is rejected when it is null or the empty string (an absent key, JS
undefined, is rejected at the lookup itself). -/
def skipVal : Value → Bool
  | .vNull => true
  | .vStr s => s == ""
  | .vNum _ => false

/-- Phase 1 of pickField (nakshatra_rationale.js lines 10 to 14): walk
exactKeys in order and return the first bound, non-null, non-empty value. -/
def pickExact (row : Row) : List String → Option Value
  | [] => none
  | k :: ks =>
    match lookupKey row k with
    | some v => if skipVal v then pickExact row ks else some v
    | none => pickExact row ks

/-- Phase 2 of pickField (nakshatra_rationale.js lines 17 to 24): walk the
record entries in insertion order, skip empty values, and return the first
value whose lower-cased key contains one of the lower-cased parts. -/
def pickFuzzy (lowerParts : List String) : Row → Option Value
  | [] => none
  | kv :: rest =>
    if skipVal kv.2 then pickFuzzy lowerParts rest
    else if lowerParts.any (fun p => strContains (jsToLower kv.1) p) then some kv.2
    else pickFuzzy lowerParts rest

/-- pickField (nakshatra_rationale.js lines 8 to 27): exact keys first,
then fuzzy key-name match, then the fallback. -/
def pickField (row : Row) (exactKeys fuzzyParts : List String) (fallback : Value) : Value :=
  match pickExact row exactKeys with
  | some v => v
  | none =>
    match pickFuzzy (fuzzyParts.map jsToLower) row with
    | some v => v
    | none => fallback

/-- The phase-1 success test for one exact key: the key is bound to a value
that is neither null nor the empty string. -/
def keyHit (row : Row) (k : String) : Bool :=
  match lookupKey row k with
  | some v => !(skipVal v)
  | none => false

/-- The phase-2 success test for one record entry: its value is not skipped
and its lower-cased key contains one of the (already lower-cased) parts. -/
def fuzzyHit (lowerParts : List String) (kv : String × Value) : Bool :=
  !(skipVal kv.2) && lowerParts.any (fun p => strContains (jsToLower kv.1) p)

theorem pickExact_eq_find (row : Row) (eks : List String) :
    pickExact row eks = Option.bind (eks.find? (keyHit row)) (lookupKey row) := by
  induction eks with
  | nil => rfl
  | cons k ks ih =>
    by_cases h : keyHit row k = true
    · rw [List.find?_cons_of_pos _ h]
      unfold keyHit at h
      cases hl : lookupKey row k with
      | none => rw [hl] at h; simp at h
      | some v =>
        rw [hl] at h
        simp only [Bool.not_eq_true'] at h
        simp [pickExact, hl, h]
    · rw [List.find?_cons_of_neg _ h]
      unfold keyHit at h
      cases hl : lookupKey row k with
      | none => simp [pickExact, hl, ih]
      | some v =>
        rw [hl] at h
        simp only [Bool.not_eq_true', Bool.not_eq_false] at h
        simp [pickExact, hl, h, ih]

theorem pickFuzzy_eq_find (lowerParts : List String) (row : Row) :
    pickFuzzy lowerParts row
      = Option.map Prod.snd (row.find? (fuzzyHit lowerParts)) := by
  induction row with
  | nil => rfl
  | cons kv rest ih =>
    by_cases hs : skipVal kv.2 = true
    · have hhit : ¬ fuzzyHit lowerParts kv = true := by
        simp [fuzzyHit, hs]
      rw [List.find?_cons_of_neg _ hhit]
      simp [pickFuzzy, hs, ih]
    · simp only [Bool.not_eq_true] at hs
      by_cases ha : lowerParts.any (fun p => strContains (jsToLower kv.1) p) = true
      · have hhit : fuzzyHit lowerParts kv = true := by
          simp [fuzzyHit, hs, ha]
        rw [List.find?_cons_of_pos _ hhit]
        simp [pickFuzzy, hs, ha]
      · have hhit : ¬ fuzzyHit lowerParts kv = true := by
          simp [fuzzyHit, hs, ha]
        rw [List.find?_cons_of_neg _ hhit]
        simp only [Bool.not_eq_true] at ha
        simp [pickFuzzy, hs, ha, ih]

theorem any_of_perm (l1 l2 : List String) (p : String → Bool)
    (h : List.Perm l1 l2) : l1.any p = l2.any p := by
  induction h with
  | nil => rfl
  | cons a _ ih => simp [List.any_cons, ih]
  | swap a b l => simp [List.any_cons, Bool.or_left_comm]
  | trans _ _ ih1 ih2 => rw [ih1, ih2]

theorem pickFuzzy_perm (lp1 lp2 : List String) (h : List.Perm lp1 lp2) (row : Row) :
    pickFuzzy lp1 row = pickFuzzy lp2 row := by
  induction row with
  | nil => rfl
  | cons kv rest ih =>
    simp only [pickFuzzy, any_of_perm lp1 lp2 _ h, ih]

/-- C1: for every record, ordered exact-key list, fuzzy-substring list and
fallback, if some exact key is present with a value that is neither absent
nor empty (the first such key being k, bound to v), then pickField returns
v immediately, whatever the fuzzy parts and the fallback are; in particular
a numeric zero value is returned as 0 and never replaced by the fallback. -/
theorem resolve_exact_priority (row : Row) (exactKeys fuzzyParts : List String)
    (fallback : Value) (k : String) (v : Value)
    (hfind : exactKeys.find? (keyHit row) = some k)
    (hv : lookupKey row k = some v) :
    pickField row exactKeys fuzzyParts fallback = v := by
  have hkh : keyHit row k = true := List.find?_some hfind
  have hskip : skipVal v = false := by
    unfold keyHit at hkh
    rw [hv] at hkh
    simpa using hkh
  have hpe : pickExact row exactKeys = some v := by
    rw [pickExact_eq_find, hfind]
    simpa using hv
  simp [pickField, hpe]

/-- C1 witness: the exact key nakshatra_score is bound to the number 0, a
fuzzy part would also match the memo entry, and the fallback is NA; the
resolver still returns 0 from phase 1. -/
theorem resolve_exact_priority_witness :
    pickField [("memo", Value.vStr "fuzzy bait"), ("nakshatra_score", Value.vNum 0)]
      ["nakshatra_score"] ["memo", "score"] (Value.vStr "NA") = Value.vNum 0 :=
  resolve_exact_priority _ _ _ _ "nakshatra_score" (Value.vNum 0)
    (by decide) (by decide)

/-- C2: when no exact key matches, pickField returns the value of the first
record entry in insertion order whose value is neither absent nor empty and
whose lower-cased key contains some lower-cased fuzzy part — the order of
fuzzyParts establishes no priority (any permutation of it gives the same
result) — and when no entry matches either, pickField returns exactly the
supplied fallback. -/
theorem resolve_fuzzy_order (row : Row) (exactKeys fuzzyParts : List String)
    (fallback : Value)
    (hex : ∀ k ∈ exactKeys, keyHit row k = false) :
    pickField row exactKeys fuzzyParts fallback
      = (Option.map Prod.snd (row.find? (fuzzyHit (fuzzyParts.map jsToLower)))).getD fallback
    ∧ ∀ fuzzyParts2 : List String, List.Perm fuzzyParts2 fuzzyParts →
        pickField row exactKeys fuzzyParts2 fallback
          = pickField row exactKeys fuzzyParts fallback := by
  have hnone : exactKeys.find? (keyHit row) = none := by
    rw [List.find?_eq_none]
    intro k hk
    simp [hex k hk]
  have hpe : pickExact row exactKeys = none := by
    rw [pickExact_eq_find, hnone]; rfl
  constructor
  · rw [pickField, hpe, pickFuzzy_eq_find]
    cases row.find? (fuzzyHit (fuzzyParts.map jsToLower)) <;> rfl
  · intro fp2 hperm
    rw [pickField, pickField, hpe,
      pickFuzzy_perm (fp2.map jsToLower) (fuzzyParts.map jsToLower) (hperm.map jsToLower) row]

/-- C2 witness: no exact key is present; the first non-empty entry whose
lower-cased key contains a fuzzy part wins, and swapping the two fuzzy
parts changes nothing. -/
theorem resolve_fuzzy_order_witness :
    pickField [("filler", Value.vStr ""), ("Micro_Rationale_Long", Value.vStr "go long")]
        ["nakshatra_rationale"] ["micro", "rationale"] (Value.vStr "dash") = Value.vStr "go long"
    ∧ pickField [("filler", Value.vStr ""), ("Micro_Rationale_Long", Value.vStr "go long")]
        ["nakshatra_rationale"] ["rationale", "micro"] (Value.vStr "dash")
      = pickField [("filler", Value.vStr ""), ("Micro_Rationale_Long", Value.vStr "go long")]
        ["nakshatra_rationale"] ["micro", "rationale"] (Value.vStr "dash") := by
  have h := resolve_fuzzy_order
    [("filler", Value.vStr ""), ("Micro_Rationale_Long", Value.vStr "go long")]
    ["nakshatra_rationale"] ["micro", "rationale"] (Value.vStr "dash")
    (by decide)
  exact ⟨h.1.trans (by decide), h.2 ["rationale", "micro"] (by decide)⟩

/-- C10: the exact phase matches record keys case-sensitively.  When every
record key differs from every exact key as a string (for instance only in
letter case), phase 1 finds nothing; the fuzzy phase, which lower-cases
both the record key and the parts, can still return such an entry. -/
theorem resolve_exact_case_sensitive (row : Row) (exactKeys fuzzyParts : List String)
    (fallback : Value)
    (hdiff : ∀ ke ∈ exactKeys, ∀ kv ∈ row, kv.1 ≠ ke) :
    pickExact row exactKeys = none
    ∧ ∀ kv : String × Value,
        row.find? (fuzzyHit (fuzzyParts.map jsToLower)) = some kv →
        pickField row exactKeys fuzzyParts fallback = kv.2 := by
  have hlk : ∀ ke ∈ exactKeys, lookupKey row ke = none := by
    intro ke hke
    unfold lookupKey
    have : row.find? (fun kv => kv.1 == ke) = none := by
      rw [List.find?_eq_none]
      intro kv hkv
      simpa using hdiff ke hke kv hkv
    rw [this]; rfl
  have hpe : pickExact row exactKeys = none := by
    rw [pickExact_eq_find]
    cases hf : exactKeys.find? (keyHit row) with
    | none => rfl
    | some k =>
      have hkh : keyHit row k = true := List.find?_some hf
      have hmem : k ∈ exactKeys := List.mem_of_find?_eq_some hf
      unfold keyHit at hkh
      rw [hlk k hmem] at hkh
      simp at hkh
  refine ⟨hpe, ?_⟩
  intro kv hkv
  rw [pickField, hpe, pickFuzzy_eq_find, hkv]
  rfl

/-- C10 witness: the record key Nakshatra_Bias differs from the exact key
nakshatra_bias only in letter case, so phase 1 returns nothing, while the
case-insensitive fuzzy part bias still finds the entry. -/
theorem resolve_exact_case_sensitive_witness :
    pickExact [("Nakshatra_Bias", Value.vStr "bullish")] ["nakshatra_bias"] = none
    ∧ pickField [("Nakshatra_Bias", Value.vStr "bullish")] ["nakshatra_bias"]
        ["bias"] (Value.vStr "") = Value.vStr "bullish" := by
  have h := resolve_exact_case_sensitive [("Nakshatra_Bias", Value.vStr "bullish")]
    ["nakshatra_bias"] ["bias"] (Value.vStr "") (by decide)
  exact ⟨h.1, h.2 ("Nakshatra_Bias", Value.vStr "bullish") (by decide)⟩

/-- JS truthiness on the modelled values: null, the empty string and the
number 0 are falsy. -/
def jsFalsy : Value → Bool
  | .vNull => true
  | .vStr s => s == ""
  | .vNum n => n == 0

/-- JS String(v) on the modelled values. -/
def jsToString : Value → String
  | .vStr s => s
  | .vNum n => toString n
  | .vNull => "null"

/-- The coercion String(v or-else "") that the classifiers apply to a
resolved value before any substring test. -/
def jsOrEmptyString (v : Value) : String :=
  if jsFalsy v then "" else jsToString v

/-- The direction tag of the summary classifier. -/
inductive Direction where
  | bull
  | bear
  | neutral
deriving DecidableEq

/-- Direction classification of buildSummary (nakshatra_rationale.js lines
261 to 272): lower-case the resolved bias, empty is neutral, then bull
before bear, otherwise neutral. -/
def summaryDirection (v : Value) : Direction :=
  let bias := jsToLower (jsOrEmptyString v)
  if bias == "" then .neutral
  else if strContains bias "bull" then .bull
  else if strContains bias "bear" then .bear
  else .neutral

/-- Row-level bias CSS class of buildNakshatraRows (nakshatra_rationale.js
lines 202 to 206): two independent assignments, the bear test overwriting
the bull one, then an appended strong marker. -/
def biasClass (v : Value) : String :=
  let biasLower := jsToLower (jsOrEmptyString v)
  let c0 := ""
  let c1 := if strContains biasLower "bull" then "bias-bull" else c0
  let c2 := if strContains biasLower "bear" then "bias-bear" else c1
  if strContains biasLower "strong" then c2 ++ " bias-strong" else c2

/-- C3 counterexample: the text bullish-to-bearish contains bull, yet the
row-level classification of buildNakshatraRows yields the bear class, not
the bull class, while the summary classification of the same value yields
bull — so the single classification rule the claim states does not hold of
both cited code sites. -/
theorem direction_bull_bear_counterexample :
    strContains (jsToLower (jsOrEmptyString (Value.vStr "bullish-to-bearish"))) "bull" = true
    ∧ biasClass (Value.vStr "bullish-to-bearish") = "bias-bear"
    ∧ biasClass (Value.vStr "bullish-to-bearish") ≠ "bias-bull"
    ∧ summaryDirection (Value.vStr "bullish-to-bearish") = Direction.bull := by
  refine ⟨by decide, by decide, by decide, by decide⟩

/-- C3 amended: the summary direction classification behaves as the claim
states (bull if the lower-cased text contains bull, otherwise bear if it
contains bear, otherwise neutral, including for the empty value); the
row-level bias class of buildNakshatraRows instead gives the bear test
priority, assigning the bear class whenever the text contains bear, the
bull class only when it contains bull and not bear, and appending the
strong marker independently. -/
theorem direction_classification_amended (v : Value) :
    summaryDirection v =
      (if strContains (jsToLower (jsOrEmptyString v)) "bull" then Direction.bull
       else if strContains (jsToLower (jsOrEmptyString v)) "bear" then Direction.bear
       else Direction.neutral)
    ∧ biasClass v =
      ((if strContains (jsToLower (jsOrEmptyString v)) "bear" then "bias-bear"
        else if strContains (jsToLower (jsOrEmptyString v)) "bull" then "bias-bull"
        else "")
       ++ (if strContains (jsToLower (jsOrEmptyString v)) "strong" then " bias-strong"
           else "")) := by
  constructor
  · rw [summaryDirection]
    by_cases he : jsToLower (jsOrEmptyString v) == ""
    · have he2 : jsToLower (jsOrEmptyString v) = "" := by simpa using he
      rw [he2]
      decide
    · simp [he]
  · rw [biasClass]
    by_cases hbear : strContains (jsToLower (jsOrEmptyString v)) "bear" = true
    · by_cases hstrong : strContains (jsToLower (jsOrEmptyString v)) "strong" = true
      · simp [hbear, hstrong]
      · simp [hbear, hstrong]
    · by_cases hstrong : strContains (jsToLower (jsOrEmptyString v)) "strong" = true
      · simp [hbear, hstrong]
      · simp [hbear, hstrong]

/-- Quality CSS class of buildNakshatraRows (nakshatra_rationale.js lines
208 to 214): soft and mridu first, then sharp and tikshna, else nothing. -/
def qualClass (v : Value) : String :=
  let qualityLower := jsToLower (jsOrEmptyString v)
  if strContains qualityLower "soft" || strContains qualityLower "mridu" then "qual-soft"
  else if strContains qualityLower "sharp" || strContains qualityLower "tikshna" then "qual-sharp"
  else ""

/-- C6: quality classification lower-cases the value and yields the soft
class exactly when the text contains soft or mridu, the sharp class exactly
when it contains sharp or tikshna but no soft marker, and no class
otherwise; a value carrying both a soft and a sharp marker yields soft. -/
theorem quality_classification (v : Value) :
    (qualClass v = "qual-soft"
      ↔ (strContains (jsToLower (jsOrEmptyString v)) "soft"
          || strContains (jsToLower (jsOrEmptyString v)) "mridu") = true)
    ∧ (qualClass v = "qual-sharp"
      ↔ ((strContains (jsToLower (jsOrEmptyString v)) "soft"
          || strContains (jsToLower (jsOrEmptyString v)) "mridu") = false
        ∧ (strContains (jsToLower (jsOrEmptyString v)) "sharp"
          || strContains (jsToLower (jsOrEmptyString v)) "tikshna") = true))
    ∧ (qualClass v = ""
      ↔ ((strContains (jsToLower (jsOrEmptyString v)) "soft"
          || strContains (jsToLower (jsOrEmptyString v)) "mridu") = false
        ∧ (strContains (jsToLower (jsOrEmptyString v)) "sharp"
          || strContains (jsToLower (jsOrEmptyString v)) "tikshna") = false))
    ∧ qualClass (Value.vStr "Mridu (soft) with a sharp edge") = "qual-soft" := by
  refine ⟨?_, ?_, ?_, by decide⟩ <;>
  · rw [qualClass]
    by_cases h1 : (strContains (jsToLower (jsOrEmptyString v)) "soft"
        || strContains (jsToLower (jsOrEmptyString v)) "mridu") = true
    · simp [h1]
    · by_cases h2 : (strContains (jsToLower (jsOrEmptyString v)) "sharp"
          || strContains (jsToLower (jsOrEmptyString v)) "tikshna") = true
      · simp only [Bool.not_eq_true] at h1
        simp [h1, h2]
      · simp only [Bool.not_eq_true] at h1 h2
        simp [h1, h2]

/-- Recommendation CSS class of buildTable (app.js lines 178 to 182):
an exclusive chain testing STRONG BUY, then BUY, then STRONG SELL, then
SELL on the upper-cased text, else no class. -/
def recClass (v : Value) : String :=
  let recText := jsToUpper (jsOrEmptyString v)
  if strContains recText "STRONG BUY" then "rec-strong-buy"
  else if strContains recText "BUY" then "rec-buy"
  else if strContains recText "STRONG SELL" then "rec-strong-sell"
  else if strContains recText "SELL" then "rec-sell"
  else ""

/-- Per-session direction summary counters of buildSummary
(nakshatra_rationale.js line 253). -/
structure NakStats where
  bull : Nat
  bear : Nat
  neutral : Nat
  strong : Nat
  total : Nat
deriving DecidableEq

/-- Per-session recommendation summary counters of buildSummary
(app.js line 220). -/
structure RecStats where
  buy : Nat
  strongBuy : Nat
  sell : Nat
  strongSell : Nat
  total : Nat
deriving DecidableEq

/-- The bias value buildSummary and buildNakshatraRows resolve for a row
(nakshatra_rationale.js lines 256 to 260): exact key nakshatra_bias, fuzzy
parts bias and direction, default fallback the empty string. -/
def rowBias (row : Row) : Value :=
  pickField row ["nakshatra_bias"] ["bias", "direction"] (Value.vStr "")

/-- One loop iteration of buildSummary in nakshatra_rationale.js (lines 255
to 277): bump total, bump exactly one direction bucket, and bump the
independent strong tally when the text contains strong. -/
def nakStep (s : NakStats) (row : Row) : NakStats :=
  let bias := jsToLower (jsOrEmptyString (rowBias row))
  let s1 := { s with total := s.total + 1 }
  let s2 :=
    if bias == "" then { s1 with neutral := s1.neutral + 1 }
    else if strContains bias "bull" then { s1 with bull := s1.bull + 1 }
    else if strContains bias "bear" then { s1 with bear := s1.bear + 1 }
    else { s1 with neutral := s1.neutral + 1 }
  if strContains bias "strong" then { s2 with strong := s2.strong + 1 } else s2

/-- The counters one session accumulates in buildSummary
(nakshatra_rationale.js), starting from all zeroes. -/
def nakSummary (rows : List Row) : NakStats :=
  rows.foldl nakStep { bull := 0, bear := 0, neutral := 0, strong := 0, total := 0 }

/-- One loop iteration of buildSummary in app.js (lines 222 to 229): bump
total and at most one recommendation bucket, the chain testing STRONG BUY,
BUY, STRONG SELL, SELL on the upper-cased trade_recommendation. -/
def recStep (s : RecStats) (row : Row) : RecStats :=
  let recText := jsToUpper (jsOrEmptyString ((lookupKey row "trade_recommendation").getD Value.vNull))
  let s1 := { s with total := s.total + 1 }
  if strContains recText "STRONG BUY" then { s1 with strongBuy := s1.strongBuy + 1 }
  else if strContains recText "BUY" then { s1 with buy := s1.buy + 1 }
  else if strContains recText "STRONG SELL" then { s1 with strongSell := s1.strongSell + 1 }
  else if strContains recText "SELL" then { s1 with sell := s1.sell + 1 }
  else s1

/-- The counters one session accumulates in buildSummary (app.js),
starting from all zeroes. -/
def recSummary (rows : List Row) : RecStats :=
  rows.foldl recStep { buy := 0, strongBuy := 0, sell := 0, strongSell := 0, total := 0 }

/-- C4: the recommendation classification upper-cases the value and runs the
exclusive chain STRONG BUY, BUY, STRONG SELL, SELL; each class is produced
exactly when its test is the first to match, a value matching no test yields
no class, upper-casing STRONG BUY SIGNAL yields the strong-buy class and
never the buy class, and the summary in app.js counts such a row in the
strongBuy bucket only. -/
theorem recommendation_chain (v : Value) :
    (recClass v = "rec-strong-buy"
      ↔ strContains (jsToUpper (jsOrEmptyString v)) "STRONG BUY" = true)
    ∧ (recClass v = "rec-buy"
      ↔ (strContains (jsToUpper (jsOrEmptyString v)) "STRONG BUY" = false
        ∧ strContains (jsToUpper (jsOrEmptyString v)) "BUY" = true))
    ∧ (recClass v = "rec-strong-sell"
      ↔ (strContains (jsToUpper (jsOrEmptyString v)) "STRONG BUY" = false
        ∧ strContains (jsToUpper (jsOrEmptyString v)) "BUY" = false
        ∧ strContains (jsToUpper (jsOrEmptyString v)) "STRONG SELL" = true))
    ∧ (recClass v = "rec-sell"
      ↔ (strContains (jsToUpper (jsOrEmptyString v)) "STRONG BUY" = false
        ∧ strContains (jsToUpper (jsOrEmptyString v)) "BUY" = false
        ∧ strContains (jsToUpper (jsOrEmptyString v)) "STRONG SELL" = false
        ∧ strContains (jsToUpper (jsOrEmptyString v)) "SELL" = true))
    ∧ (recClass v = ""
      ↔ (strContains (jsToUpper (jsOrEmptyString v)) "STRONG BUY" = false
        ∧ strContains (jsToUpper (jsOrEmptyString v)) "BUY" = false
        ∧ strContains (jsToUpper (jsOrEmptyString v)) "STRONG SELL" = false
        ∧ strContains (jsToUpper (jsOrEmptyString v)) "SELL" = false))
    ∧ recClass (Value.vStr "Strong Buy signal") = "rec-strong-buy"
    ∧ recStep { buy := 0, strongBuy := 0, sell := 0, strongSell := 0, total := 0 }
        [("trade_recommendation", Value.vStr "STRONG BUY SIGNAL")]
      = { buy := 0, strongBuy := 1, sell := 0, strongSell := 0, total := 1 } := by
  refine ⟨?_, ?_, ?_, ?_, ?_, by decide, by decide⟩ <;>
  · rw [recClass]
    by_cases h1 : strContains (jsToUpper (jsOrEmptyString v)) "STRONG BUY" = true <;>
    by_cases h2 : strContains (jsToUpper (jsOrEmptyString v)) "BUY" = true <;>
    by_cases h3 : strContains (jsToUpper (jsOrEmptyString v)) "STRONG SELL" = true <;>
    by_cases h4 : strContains (jsToUpper (jsOrEmptyString v)) "SELL" = true <;>
    simp only [Bool.not_eq_true] at h1 h2 h3 h4 <;>
    simp [h1, h2, h3, h4]

theorem nakStep_preserves (s : NakStats) (row : Row)
    (h1 : s.bull + s.bear + s.neutral = s.total) (h2 : s.strong ≤ s.total) :
    (nakStep s row).bull + (nakStep s row).bear + (nakStep s row).neutral
      = (nakStep s row).total
    ∧ (nakStep s row).strong ≤ (nakStep s row).total := by
  simp only [nakStep]
  split_ifs <;> simp <;> omega

theorem nakFold_invariant (rows : List Row) (s : NakStats)
    (h1 : s.bull + s.bear + s.neutral = s.total) (h2 : s.strong ≤ s.total) :
    (rows.foldl nakStep s).bull + (rows.foldl nakStep s).bear
        + (rows.foldl nakStep s).neutral = (rows.foldl nakStep s).total
    ∧ (rows.foldl nakStep s).strong ≤ (rows.foldl nakStep s).total := by
  induction rows generalizing s with
  | nil => exact ⟨h1, h2⟩
  | cons r rs ih =>
    have hstep := nakStep_preserves s r h1 h2
    exact ih (nakStep s r) hstep.1 hstep.2

theorem recStep_preserves (s : RecStats) (row : Row)
    (h : s.buy + s.strongBuy + s.sell + s.strongSell ≤ s.total) :
    (recStep s row).buy + (recStep s row).strongBuy + (recStep s row).sell
        + (recStep s row).strongSell ≤ (recStep s row).total := by
  simp only [recStep]
  split <;> [skip; split <;> [skip; split <;> [skip; split]]] <;> simp <;> omega

theorem recFold_invariant (rows : List Row) (s : RecStats)
    (h : s.buy + s.strongBuy + s.sell + s.strongSell ≤ s.total) :
    (rows.foldl recStep s).buy + (rows.foldl recStep s).strongBuy
        + (rows.foldl recStep s).sell + (rows.foldl recStep s).strongSell
      ≤ (rows.foldl recStep s).total := by
  induction rows generalizing s with
  | nil => exact h
  | cons r rs ih => exact ih (recStep s r) (recStep_preserves s r h)

/-- C5: for every ordered sequence of records of a session, the direction
summary satisfies bull + bear + neutral = total (each record bumps exactly
one direction bucket) and 0 <= strong <= total (strong is a non-exclusive
tally), and the recommendation summary satisfies
buy + strongBuy + sell + strongSell <= total (each record bumps at most one
bucket). -/
theorem session_summary_invariants (rows : List Row) :
    (nakSummary rows).bull + (nakSummary rows).bear + (nakSummary rows).neutral
      = (nakSummary rows).total
    ∧ (nakSummary rows).strong ≤ (nakSummary rows).total
    ∧ (recSummary rows).buy + (recSummary rows).strongBuy + (recSummary rows).sell
        + (recSummary rows).strongSell ≤ (recSummary rows).total := by
  have hn := nakFold_invariant rows
    { bull := 0, bear := 0, neutral := 0, strong := 0, total := 0 } rfl (Nat.le_refl 0)
  have hr := recFold_invariant rows
    { buy := 0, strongBuy := 0, sell := 0, strongSell := 0, total := 0 } (Nat.le_refl 0)
  exact ⟨hn.1, hn.2, hr⟩

/-- The independent strength tag: the lower-cased bias text contains
strong (nakshatra_rationale.js line 274). -/
def strongFlag (v : Value) : Bool :=
  strContains (jsToLower (jsOrEmptyString v)) "strong"

/-- The tag set classification derives for one record: its direction tag
and its strength tag, both functions of the resolved bias value alone. -/
def rowTags (row : Row) : Direction × Bool :=
  (summaryDirection (rowBias row), strongFlag (rowBias row))

/-- Counting one already-computed tag set into the summary counters. -/
def tagStep (s : NakStats) (t : Direction × Bool) : NakStats :=
  let s1 := { s with total := s.total + 1 }
  let s2 :=
    match t.1 with
    | .bull => { s1 with bull := s1.bull + 1 }
    | .bear => { s1 with bear := s1.bear + 1 }
    | .neutral => { s1 with neutral := s1.neutral + 1 }
  if t.2 then { s2 with strong := s2.strong + 1 } else s2

/-- Counting a list of tag sets, starting from all zeroes. -/
def tagCounts (ts : List (Direction × Bool)) : NakStats :=
  ts.foldl tagStep { bull := 0, bear := 0, neutral := 0, strong := 0, total := 0 }

theorem nakStep_eq_tagStep (s : NakStats) (row : Row) :
    nakStep s row = tagStep s (rowTags row) := by
  simp only [nakStep, tagStep, rowTags, summaryDirection, strongFlag]
  by_cases he : jsToLower (jsOrEmptyString (rowBias row)) == ""
  · have he2 : jsToLower (jsOrEmptyString (rowBias row)) = "" := by simpa using he
    rw [he2]
    simp [show strContains "" "strong" = false from by decide,
      show strContains "" "bull" = false from by decide,
      show strContains "" "bear" = false from by decide]
  · by_cases hbull : strContains (jsToLower (jsOrEmptyString (rowBias row))) "bull" = true
    · simp [he, hbull]
    · by_cases hbear : strContains (jsToLower (jsOrEmptyString (rowBias row))) "bear" = true
      · simp [he, hbull, hbear]
      · simp [he, hbull, hbear]

/-- C9: classification is deterministic and pure.  Classifying the same
bias value twice yields the same tag set, and the stateful summary loop is
observationally a pure function of the per-record tag sets: folding the
records equals classifying each record once and counting the resulting
tags. -/
theorem classification_deterministic_pure (rows : List Row) :
    nakSummary rows = tagCounts (rows.map rowTags)
    ∧ ∀ row : Row, rowTags row = rowTags row := by
  refine ⟨?_, fun _ => rfl⟩
  rw [nakSummary, tagCounts, List.foldl_map]
  exact List.foldl_ext _ _ _ (fun s r _ => nakStep_eq_tagStep s r)

/-- The report payload after JSON parsing: a date and, when the producer
supplied one, the sessions mapping (records grouped by session key, in
order).  A missing or null sessions field is modelled by none. -/
structure Payload where
  date : String
  sessions : Option (List (String × List Row))
deriving DecidableEq

/-- One HTTP response to the report fetch: the ok flag (2xx), the status
code, the raw body text, and the parsed JSON body (none models a body that
parses to null, making the data value itself falsy). -/
structure ApiResponse where
  ok : Bool
  status : Nat
  bodyText : String
  jsonData : Option Payload
deriving DecidableEq

/-- Outcome of the nakshatra render pass: either a single user-visible
error message and nothing rendered, or the rendered session rows together
with the per-session direction summaries. -/
inductive NakOutcome where
  | failed (msg : String)
  | rendered (sessions : List (String × List Row)) (stats : List (String × NakStats))
deriving DecidableEq

/-- Outcome of the app.js render pass: either a single user-visible error
message and nothing rendered, or the rendered session rows together with
the per-session recommendation summaries. -/
inductive ReportOutcome where
  | failed (msg : String)
  | rendered (sessions : List (String × List Row)) (stats : List (String × RecStats))
deriving DecidableEq

/-- loadNakshatra (nakshatra_rationale.js lines 79 to 91): a non-2xx
response raises HTTP status with the first 200 characters of the body; a
null payload or a payload without sessions raises the no-session-data
message; otherwise the rows and the per-session summaries are rendered. -/
def loadNakshatra (res : ApiResponse) : NakOutcome :=
  if res.ok then
    match res.jsonData with
    | none => .failed "No session data returned from API."
    | some data =>
      match data.sessions with
      | none => .failed "No session data returned from API."
      | some sess => .rendered sess (sess.map (fun kv => (kv.1, nakSummary kv.2)))
  else .failed ("HTTP " ++ toString res.status ++ ": " ++ res.bodyText.take 200)

/-- loadReport (app.js lines 98 to 111): a non-2xx response raises HTTP
status only (no body excerpt); a null payload makes the property read
data.sessions throw (environment-specific TypeError text); a payload
without sessions falls back to an empty mapping in buildTable and
buildSummary and renders an empty table under an OK status. -/
def loadReport (res : ApiResponse) : ReportOutcome :=
  if res.ok then
    match res.jsonData with
    | none => .failed "TypeError"
    | some data =>
      let sess := data.sessions.getD []
      .rendered sess (sess.map (fun kv => (kv.1, recSummary kv.2)))
  else .failed ("HTTP " ++ toString res.status)

/-- C7 counterexample: on a 500 response whose body is the text boom, the
app.js report loader fails with the message HTTP 500, which does not
contain the body excerpt the claim requires to be surfaced. -/
theorem transport_error_counterexample :
    loadReport { ok := false, status := 500, bodyText := "boom", jsonData := none }
      = ReportOutcome.failed "HTTP 500"
    ∧ strContains "HTTP 500" "boom" = false := by
  refine ⟨by decide, by decide⟩

/-- C7 amended: on every non-2xx response the nakshatra render pass fails
with the status code and the first 200 characters of the body, while the
app.js render pass fails with the status code only; in both passes the
failure outcome carries no rendered content and there is no retry (the
pass returns its single failure outcome directly). -/
theorem transport_error_messages (st : Nat) (body : String) (jd : Option Payload) :
    loadNakshatra { ok := false, status := st, bodyText := body, jsonData := jd }
      = NakOutcome.failed ("HTTP " ++ toString st ++ ": " ++ body.take 200)
    ∧ loadReport { ok := false, status := st, bodyText := body, jsonData := jd }
      = ReportOutcome.failed ("HTTP " ++ toString st) := by
  exact ⟨rfl, rfl⟩

/-- C8 counterexample: a 200 response whose payload has a date but no
sessions field is not treated as an error by the app.js render pass; it is
rendered as an empty table under an OK status. -/
theorem shape_error_counterexample :
    loadReport { ok := true, status := 200, bodyText := "",
                 jsonData := some { date := "2024-01-01", sessions := none } }
      = ReportOutcome.rendered [] [] := by
  decide

/-- C8 amended: the nakshatra render pass treats a null payload or a
payload without sessions as fatal, failing with the no-session-data
message and rendering nothing, whereas the app.js render pass substitutes
an empty sessions mapping for a missing one and renders an empty table
under an OK status. -/
theorem shape_error_handling (st : Nat) (body : String) (d : String) :
    loadNakshatra { ok := true, status := st, bodyText := body,
                    jsonData := some { date := d, sessions := none } }
      = NakOutcome.failed "No session data returned from API."
    ∧ loadNakshatra { ok := true, status := st, bodyText := body, jsonData := none }
      = NakOutcome.failed "No session data returned from API."
    ∧ loadReport { ok := true, status := st, bodyText := body,
                   jsonData := some { date := d, sessions := none } }
      = ReportOutcome.rendered [] [] := by
  exact ⟨rfl, rfl, rfl⟩
